import Mathlib

/-!
Shallow embedding of the field-descriptor-to-declaration generator from
`src/practice/field_generator_gui.py` (class `FieldGeneratorGUI`), abstracted
away from the GUI toolkit exactly as the specification describes: descriptor
construction (`add_field`), declaration synthesis (`generate_field_code`),
plus import aggregation and assembly (`generate_code`, here `generate`).
All definitions are executable and mirror the Python source; string helpers
(`pyStrip`, `pyLower`, `pyStartsWith`, `pyFloatParses`) model the Python
primitives (`str.strip`, `str.lower`, `str.startswith`, `float(...)`) the
source relies on.
-/

namespace FieldGen

/-- Python whitespace characters stripped by `str.strip()` (ASCII range). -/
def isPySpace (c : Char) : Bool :=
  c = ' ' || c = '\t' || c = '\n' || c = '\r' || c = '\x0b' || c = '\x0c'

/-- ASCII lowercasing of one character, as Python `str.lower` does on ASCII. -/
def lowerChar (c : Char) : Char :=
  if 'A' ≤ c ∧ c ≤ 'Z' then Char.ofNat (c.toNat + 32) else c

/-- Python `s.lower()` on ASCII strings. -/
def pyLower (s : String) : String :=
  ⟨s.data.map lowerChar⟩

/-- Python `s.strip()`: drop leading and trailing whitespace. -/
def pyStrip (s : String) : String :=
  ⟨((s.data.dropWhile isPySpace).reverse.dropWhile isPySpace).reverse⟩

/-- Python `s.startswith(p)`: case-sensitive prefix test. -/
def pyStartsWith (s p : String) : Bool :=
  p.data.isPrefixOf s.data

/-- Python `needle in hay` substring test on strings. -/
def hasSubstr : List Char → List Char → Bool
  | needle, [] => needle.isEmpty
  | needle, c :: t => needle.isPrefixOf (c :: t) || hasSubstr needle t

/-- Consume a run of digits in which underscores may stand strictly between
digits, as Python numeric literals allow; returns the unconsumed remainder.
Called after at least one digit has already been consumed. -/
def chompDigitsUnd : List Char → List Char
  | '_' :: d :: rest => if d.isDigit then chompDigitsUnd rest else '_' :: d :: rest
  | c :: rest => if c.isDigit then chompDigitsUnd rest else c :: rest
  | [] => []

/-- A nonempty underscore-grouped digit run; `none` when no leading digit. -/
def digitsU : List Char → Option (List Char)
  | c :: rest => if c.isDigit then some (chompDigitsUnd rest) else none
  | [] => none

/-- Mantissa of a Python float literal: `D`, `D.`, `D.D` or `.D`. -/
def parseMantissa (cs : List Char) : Option (List Char) :=
  match digitsU cs with
  | some rest =>
    match rest with
    | '.' :: rest2 =>
      match digitsU rest2 with
      | some rest3 => some rest3
      | none => some rest2
    | _ => some rest
  | none =>
    match cs with
    | '.' :: rest2 => digitsU rest2
    | _ => none

/-- Optional exponent part followed by end of input. -/
def parseExpTail : List Char → Bool
  | [] => true
  | c :: rest =>
    if c = 'e' || c = 'E' then
      match rest with
      | s :: rest2 =>
        if s = '+' || s = '-' then
          match digitsU rest2 with
          | some [] => true
          | _ => false
        else
          match digitsU (s :: rest2) with
          | some [] => true
          | _ => false
      | [] => false
    else false

/-- Whether Python `float(s)` succeeds: optional surrounding whitespace and
sign, then `inf`/`infinity`/`nan` (case-insensitive) or a float literal. -/
def pyFloatParses (s : String) : Bool :=
  let cs := (((s.data.map lowerChar).dropWhile isPySpace).reverse.dropWhile isPySpace).reverse
  let cs := match cs with
    | '+' :: r => r
    | '-' :: r => r
    | r => r
  if cs == ['i', 'n', 'f'] || cs == ['i', 'n', 'f', 'i', 'n', 'i', 't', 'y']
      || cs == ['n', 'a', 'n'] then true
  else
    match parseMantissa cs with
    | some rest => parseExpTail rest
    | none => false

/-- The fixed enumeration of field type categories; each corresponds to one
entry of the source's `field_types` mapping. -/
inductive TypeCategory
  | integer
  | text
  | boolean
  | float
  | decimal
  | dateTime
  | date
  | time
  | uuid
  | enum
  | jsonObject
  | textList
deriving DecidableEq, Repr

/-- The Python-side type-name string stored in `field_info['type']`. -/
def pythonName : TypeCategory → String
  | .integer => "int"
  | .text => "str"
  | .boolean => "bool"
  | .float => "float"
  | .decimal => "Decimal"
  | .dateTime => "datetime"
  | .date => "date"
  | .time => "time"
  | .uuid => "uuid.UUID"
  | .enum => "Enum"
  | .jsonObject => "Dict[str, Any]"
  | .textList => "List[str]"

/-- One field descriptor: the `field_info` dictionary built by `add_field`.
Optional string entries hold `none` where the Python dict holds `None`. -/
structure FieldInfo where
  name : String
  type : TypeCategory
  optional : Bool
  primary_key : Bool
  default : Option String
  description : Option String
  min_value : Option String
  max_value : Option String
  decimal_places : Option String
deriving DecidableEq, Repr

/-- Python truthiness of an optional string slot: `None` and `""` are falsy. -/
def optTruthy : Option String → Bool
  | none => false
  | some s => !(s == "")

/-- The five outcomes of default-value classification (§4.2 of the spec). -/
inductive DefaultClass
  | nullDefault
  | boolDefault
  | factoryDefault
  | numericDefault
  | stringDefault
deriving DecidableEq, Repr

/-- Classification of a raw default string, mirroring the if/elif chain in
`generate_field_code`: null words, boolean words (both case-insensitive),
factory prefixes (case-sensitive), numeric parse, quoted-string fallback. -/
def classifyDefault (s : String) : DefaultClass :=
  if pyLower s = "none" ∨ pyLower s = "null" then .nullDefault
  else if pyLower s = "true" then .boolDefault
  else if pyLower s = "false" then .boolDefault
  else if pyStartsWith s "datetime." then .factoryDefault
  else if pyStartsWith s "uuid." then .factoryDefault
  else if pyFloatParses s then .numericDefault
  else .stringDefault

/-- The parameter token emitted for a raw default string. -/
def defaultToken (s : String) : String :=
  match classifyDefault s with
  | .nullDefault => "default=None"
  | .boolDefault => if pyLower s = "true" then "default=True" else "default=False"
  | .factoryDefault => "default_factory=" ++ s
  | .numericDefault => "default=" ++ s
  | .stringDefault => "default=\"" ++ s ++ "\""

/-- Default-value rule of `generate_field_code`: explicit default when given,
otherwise `default=None` for optional fields. -/
def defaultParams (f : FieldInfo) : List String :=
  match f.default with
  | some s => [defaultToken s]
  | none => if f.optional then ["default=None"] else []

/-- Primary-key rule of `generate_field_code`. -/
def pkParams (f : FieldInfo) : List String :=
  if f.primary_key then ["primary_key=True"] else []

/-- Minimum-bound rule: `min_length` for `str` fields, `ge` otherwise. -/
def minParams (f : FieldInfo) : List String :=
  match f.min_value with
  | none => []
  | some v =>
    if v = "" then []
    else if pythonName f.type = "str" then ["min_length=" ++ v] else ["ge=" ++ v]

/-- Maximum-bound rule: `max_length` for `str` fields, `le` otherwise. -/
def maxParams (f : FieldInfo) : List String :=
  match f.max_value with
  | none => []
  | some v =>
    if v = "" then []
    else if pythonName f.type = "str" then ["max_length=" ++ v] else ["le=" ++ v]

/-- Decimal-only rule: `max_digits` reuses the max bound, plus
`decimal_places` when given. -/
def decimalParams (f : FieldInfo) : List String :=
  if pythonName f.type = "Decimal" then
    (match f.max_value with
     | none => []
     | some v => if v = "" then [] else ["max_digits=" ++ v]) ++
    (match f.decimal_places with
     | none => []
     | some d => if d = "" then [] else ["decimal_places=" ++ d])
  else []

/-- Description rule: documentation token, string-quoted verbatim. -/
def descParams (f : FieldInfo) : List String :=
  match f.description with
  | none => []
  | some s => if s = "" then [] else ["description=\"" ++ s ++ "\""]

/-- The ordered parameter clause of one declaration, built by the rules of
`generate_field_code` in source order. -/
def fieldParams (f : FieldInfo) : List String :=
  defaultParams f ++ pkParams f ++ minParams f ++ maxParams f ++
    decimalParams f ++ descParams f

/-- Python `sep.join(xs)`. -/
def joinSep (sep : String) : List String → String
  | [] => ""
  | [x] => x
  | x :: xs => x ++ sep ++ joinSep sep xs

/-- The declared type: the category's type name, wrapped in `Optional[...]`
when the field is optional. -/
def typeAnn (f : FieldInfo) : String :=
  if f.optional then "Optional[" ++ pythonName f.type ++ "]" else pythonName f.type

/-- `generate_field_code`: one declaration line per descriptor. -/
def generate_field_code (f : FieldInfo) : String :=
  let ps := fieldParams f
  let fd := if ps.isEmpty then "Field()" else "Field(" ++ joinSep ", " ps ++ ")"
  f.name ++ ": " ++ typeAnn f ++ " = " ++ fd

/-- Additional import triggered by one Python type-name string, mirroring the
dispatch in `generate_code` (including the substring tests for `Dict`/`List`). -/
def importFor (t : String) : Option String :=
  if t = "Decimal" then some "from decimal import Decimal"
  else if t = "datetime" ∨ t = "date" ∨ t = "time" then
    some "from datetime import datetime, date, time"
  else if t = "uuid.UUID" then some "import uuid"
  else if hasSubstr "Dict".data t.data || hasSubstr "List".data t.data then
    some "from typing import Dict, List, Any"
  else none

/-- Additional import triggered by one descriptor. -/
def fieldImport (f : FieldInfo) : Option String :=
  importFor (pythonName f.type)

/-- Set-semantics insertion into the accumulated import list. -/
def addImport (acc : List String) (s : String) : List String :=
  if s ∈ acc then acc else acc ++ [s]

/-- The two fixed base imports seeded into the import set. -/
def baseImports : List String :=
  ["from typing import Optional", "from sqlmodel import SQLModel, Field"]

/-- One step of the import-aggregation loop of `generate_code`. -/
def importStep (acc : List String) (f : FieldInfo) : List String :=
  match fieldImport f with
  | some i => addImport acc i
  | none => acc

/-- The aggregated (unsorted) import set over the descriptor list. -/
def importsOf (fields : List FieldInfo) : List String :=
  fields.foldl importStep baseImports

/-- Lexicographic comparison of character lists by code point, the order
Python's `sorted` uses on strings. -/
def lexLe : List Char → List Char → Bool
  | [], _ => true
  | _ :: _, [] => false
  | a :: as, b :: bs => if a < b then true else if b < a then false else lexLe as bs

/-- Lexicographic order on strings, as Python's `sorted` compares them. -/
def strLexLe (s t : String) : Prop :=
  lexLe s.data t.data = true

instance : DecidableRel strLexLe :=
  fun s t => inferInstanceAs (Decidable (lexLe s.data t.data = true))

/-- `sorted(imports)`: the lexically sorted aggregated import list. -/
def sortedImports (fields : List FieldInfo) : List String :=
  List.insertionSort strLexLe (importsOf fields)

/-- Error taxonomy of the generator (§7 of the spec). -/
inductive GenError
  | validationError (category : String)
deriving DecidableEq, Repr

/-- The generated program: sorted imports plus declaration lines in input
order. -/
structure GeneratedProgram where
  importStatements : List String
  declarations : List String
deriving DecidableEq, Repr

/-- `generate_code`: refuse an empty descriptor list, otherwise aggregate the
imports and synthesize one declaration per descriptor in input order. -/
def generate (fields : List FieldInfo) : Except GenError GeneratedProgram :=
  if fields.isEmpty then Except.error (GenError.validationError "empty-input")
  else
    Except.ok
      { importStatements := sortedImports fields
        declarations := fields.map generate_field_code }

/-- Program assembly (§4.4): imports, blank line, container header with
documentation line, blank line, then the indented declaration lines. -/
def renderLines (p : GeneratedProgram) : List String :=
  p.importStatements ++
    ["", "class GeneratedModel(SQLModel, table=True):",
      "    \"\"\"自动生成的模型类\"\"\"", ""] ++
    p.declarations.map (fun d => "    " ++ d)

/-- The assembled output text. -/
def render (p : GeneratedProgram) : String :=
  joinSep "\n" (renderLines p)

/-- `x.strip() if x.strip() else None`: the normalization `add_field` applies
to every optional text input. -/
def strippedOpt (s : String) : Option String :=
  if pyStrip s = "" then none else some (pyStrip s)

/-- `add_field`: descriptor construction from the raw form inputs. The only
validation is that the stripped name is non-blank and a type category was
chosen; failure is reported as a missing-required-field validation error. -/
def add_field (rawName : String) (rawType : Option TypeCategory)
    (optional primaryKey : Bool)
    (default description minValue maxValue decimalPlaces : String) :
    Except GenError FieldInfo :=
  if pyStrip rawName = "" then
    Except.error (GenError.validationError "missing-required-field")
  else
    match rawType with
    | none => Except.error (GenError.validationError "missing-required-field")
    | some t =>
      Except.ok
        { name := pyStrip rawName
          type := t
          optional := optional
          primary_key := primaryKey
          default := strippedOpt default
          description := strippedOpt description
          min_value := strippedOpt minValue
          max_value := strippedOpt maxValue
          decimal_places := strippedOpt decimalPlaces }


/-- The worked example descriptor of §8: optional bounded integer `age`. -/
def ageField : FieldInfo :=
  { name := "age", type := .integer, optional := true, primary_key := false,
    default := none, description := none, min_value := some "0",
    max_value := some "150", decimal_places := none }

/-- A DateTime descriptor, used for the duplicated-import example. -/
def dtField1 : FieldInfo :=
  { name := "created_at", type := .dateTime, optional := false, primary_key := false,
    default := none, description := none, min_value := none,
    max_value := none, decimal_places := none }

/-- A second DateTime descriptor with a different name. -/
def dtField2 : FieldInfo :=
  { name := "updated_at", type := .dateTime, optional := false, primary_key := false,
    default := none, description := none, min_value := none,
    max_value := none, decimal_places := none }

/-- A Boolean descriptor whose raw default string is `"true"`. -/
def flagField : FieldInfo :=
  { name := "flag", type := .boolean, optional := false, primary_key := false,
    default := some "true", description := none, min_value := none,
    max_value := none, decimal_places := none }

/-- The worked Decimal example of §8: `price` with `maxConstraint "8"` and
`decimalPlaces "2"`. -/
def priceField : FieldInfo :=
  { name := "price", type := .decimal, optional := false, primary_key := false,
    default := none, description := none, min_value := none,
    max_value := some "8", decimal_places := some "2" }

/-- An integer descriptor with a zero lower bound and an upper bound. -/
def boundField : FieldInfo :=
  { name := "count", type := .integer, optional := false, primary_key := false,
    default := none, description := none, min_value := some "0",
    max_value := some "5", decimal_places := none }

/-- A Text descriptor whose default is a unique-id factory reference. -/
def factoryField : FieldInfo :=
  { name := "token_id", type := .text, optional := false, primary_key := false,
    default := some "uuid.uuid4", description := none, min_value := none,
    max_value := none, decimal_places := none }

/-- An Enum descriptor. -/
def enumField : FieldInfo :=
  { name := "status", type := .enum, optional := false, primary_key := false,
    default := none, description := none, min_value := none,
    max_value := none, decimal_places := none }

/-! ## Helper lemmas -/

theorem lexLe_total : ∀ (as bs : List Char), lexLe as bs = true ∨ lexLe bs as = true := by
  intro as
  induction as with
  | nil => intro bs; left; rfl
  | cons a as ih =>
    intro bs
    cases bs with
    | nil => right; rfl
    | cons b bs =>
      by_cases hab : a < b
      · left; simp [lexLe, hab]
      · by_cases hba : b < a
        · right; simp [lexLe, hba]
        · rcases ih bs with h | h
          · left; simp [lexLe, hab, hba, h]
          · right; simp [lexLe, hab, hba, h]

theorem lexLe_trans : ∀ (as bs cs : List Char),
    lexLe as bs = true → lexLe bs cs = true → lexLe as cs = true := by
  intro as
  induction as with
  | nil => intro bs cs _ _; rfl
  | cons a as ih =>
    intro bs cs h1 h2
    cases bs with
    | nil => simp [lexLe] at h1
    | cons b bs =>
      cases cs with
      | nil => simp [lexLe] at h2
      | cons c cs =>
        simp only [lexLe] at h1 h2 ⊢
        by_cases hab : a < b
        · by_cases hbc : b < c
          · simp [lt_trans hab hbc]
          · by_cases hcb : c < b
            · simp [hbc, hcb] at h2
            · have : b = c := le_antisymm (le_of_not_lt hcb) (le_of_not_lt hbc)
              subst this
              simp [hab]
        · by_cases hba : b < a
          · simp [hab, hba] at h1
          · have : a = b := le_antisymm (le_of_not_lt hba) (le_of_not_lt hab)
            subst this
            by_cases hbc : a < c
            · simp [hbc]
            · by_cases hcb : c < a
              · simp [hbc, hcb] at h2
              · have : a = c := le_antisymm (le_of_not_lt hcb) (le_of_not_lt hbc)
                subst this
                simp [hbc, hcb] at h1 h2 ⊢
                exact ih _ _ h1 h2

instance : IsTotal String strLexLe := ⟨fun s t => lexLe_total s.data t.data⟩

instance : IsTrans String strLexLe := ⟨fun s t u => lexLe_trans s.data t.data u.data⟩

theorem lexLe_lex : ∀ {as bs : List Char}, lexLe as bs = true →
    List.Lex (· < ·) as bs ∨ as = bs := by
  intro as
  induction as with
  | nil =>
    intro bs _
    cases bs with
    | nil => right; rfl
    | cons b bs => left; exact List.Lex.nil
  | cons a as ih =>
    intro bs h
    cases bs with
    | nil => simp [lexLe] at h
    | cons b bs =>
      by_cases hab : a < b
      · left; exact List.Lex.rel hab
      · by_cases hba : b < a
        · simp [lexLe, hab, hba] at h
        · have heq : a = b := le_antisymm (le_of_not_lt hba) (le_of_not_lt hab)
          subst heq
          simp only [lexLe, if_neg hab, if_neg hba] at h
          rcases ih h with h' | h'
          · left; exact List.Lex.cons h'
          · right; rw [h']

/-- The executable lexicographic comparison implies the standard string
order, so insertion sort by `strLexLe` yields a `≤`-sorted list. -/
theorem strLexLe_le {s t : String} (h : strLexLe s t) : s ≤ t := by
  rw [String.le_iff_toList_le]
  rcases lexLe_lex h with h' | h'
  · exact le_of_lt h'
  · exact le_of_eq h'

theorem ne_of_head_ne {s t : String} (h : s.data.head? ≠ t.data.head?) : s ≠ t :=
  fun e => h (by rw [e])

theorem ne_of_get2_ne {s t : String} (h : s.data[2]? ≠ t.data[2]?) : s ≠ t :=
  fun e => h (by rw [e])

theorem strEq_of_data {s t : String} (h : s.data = t.data) : s = t := by
  cases s; cases t; exact congrArg String.mk h

theorem strAppend_assoc (a b c : String) : a ++ b ++ c = a ++ (b ++ c) := by
  cases a; cases b; cases c
  exact congrArg String.mk (List.append_assoc _ _ _)

theorem strAppend_left_cancel {p a b : String} (h : p ++ a = p ++ b) : a = b := by
  have h2 : p.data ++ a.data = p.data ++ b.data := congrArg String.data h
  have h3 := List.append_cancel_left h2
  cases a; cases b
  exact congrArg String.mk h3

theorem mem_addImport {acc : List String} {s x : String} (h : x ∈ acc) :
    x ∈ addImport acc s := by
  unfold addImport
  split
  · exact h
  · exact List.mem_append_left _ h

theorem nodup_addImport {acc : List String} (s : String) (h : acc.Nodup) :
    (addImport acc s).Nodup := by
  unfold addImport
  split
  · exact h
  · rename_i hs
    refine h.append (List.nodup_singleton s) ?_
    intro a ha hb
    rw [List.mem_singleton] at hb
    subst hb
    exact hs ha

theorem mem_foldl_importStep (l : List FieldInfo) :
    ∀ (acc : List String) (x : String), x ∈ acc → x ∈ l.foldl importStep acc := by
  induction l with
  | nil => intro acc x h; simpa using h
  | cons f fs ih =>
    intro acc x h
    rw [List.foldl_cons]
    apply ih
    cases hfi : fieldImport f with
    | none => simpa [importStep, hfi] using h
    | some i =>
      simp only [importStep, hfi]
      exact mem_addImport h

theorem nodup_foldl_importStep (l : List FieldInfo) :
    ∀ acc : List String, acc.Nodup → (l.foldl importStep acc).Nodup := by
  induction l with
  | nil => intro acc h; simpa using h
  | cons f fs ih =>
    intro acc h
    rw [List.foldl_cons]
    apply ih
    cases hfi : fieldImport f with
    | none => simpa [importStep, hfi] using h
    | some i =>
      simp only [importStep, hfi]
      exact nodup_addImport i h

theorem nodup_importsOf (l : List FieldInfo) : (importsOf l).Nodup :=
  nodup_foldl_importStep l baseImports (by decide)

theorem foldl_importStep_none (l : List FieldInfo) :
    ∀ acc : List String, (∀ f ∈ l, fieldImport f = none) →
      l.foldl importStep acc = acc := by
  induction l with
  | nil => intro acc _; rfl
  | cons f fs ih =>
    intro acc h
    rw [List.foldl_cons]
    have hf : fieldImport f = none := h f (List.mem_cons_self f fs)
    rw [show importStep acc f = acc by simp [importStep, hf]]
    exact ih acc (fun g hg => h g (List.mem_cons_of_mem f hg))

theorem fieldImport_enum {f : FieldInfo} (h : f.type = TypeCategory.enum) :
    fieldImport f = none := by
  unfold fieldImport
  rw [h]
  decide


/-! ## Claim theorems -/

/-- C1: for every non-empty descriptor list in which every descriptor has a
non-blank name (the type category is valid by construction of the
enumeration), generation succeeds — it never raises — and the output contains
exactly one declaration line per input descriptor, in input order. -/
theorem generate_total_one_line_per_descriptor (l : List FieldInfo) (hne : l ≠ [])
    (hnames : ∀ f ∈ l, f.name ≠ "") :
    ∃ p : GeneratedProgram, generate l = Except.ok p ∧
      p.declarations = l.map generate_field_code ∧
      p.declarations.length = l.length := by
  cases l with
  | nil => exact absurd rfl hne
  | cons f fs =>
    exact ⟨{ importStatements := sortedImports (f :: fs),
             declarations := (f :: fs).map generate_field_code }, rfl, rfl, by simp⟩

theorem generate_total_one_line_per_descriptor_witness :
    ∃ p : GeneratedProgram, generate [ageField] = Except.ok p ∧
      p.declarations = [ageField].map generate_field_code ∧
      p.declarations.length = [ageField].length :=
  generate_total_one_line_per_descriptor [ageField] (by simp)
    (by intro f hf; rw [List.mem_singleton] at hf; subst hf; decide)

/-- C2: the descriptor `age` (Integer, optional, no default, bounds 0/150)
yields exactly `age: Optional[int] = Field(default=None, ge=0, le=150)`:
the Optional wrapper is applied, `default=None` is emitted because the field
is optional without an explicit default, and the parameter tokens appear in
the order default, ge, le. -/
theorem age_declaration_exact :
    generate_field_code ageField = "age: Optional[int] = Field(default=None, ge=0, le=150)" := by
  decide

/-- C6: generation on the empty descriptor list always fails with
`ValidationError("empty-input")` and produces no output. -/
theorem generate_empty_fails :
    generate [] = Except.error (GenError.validationError "empty-input") := rfl

/-- C3: default-value classification is a total, deterministic function of
the raw default string — exactly one of the five outcomes is chosen for any
string and re-classification agrees; the numeric-parse step never raises and
degrades to a quoted string literal on failure (witnessed on `"hello"`), and
raw `"true"` on a Boolean field yields the boolean literal `default=True`,
not a quoted string. -/
theorem classification_total_deterministic :
    (∀ s : String, ∃! c : DefaultClass, classifyDefault s = c) ∧
    classifyDefault "hello" = DefaultClass.stringDefault ∧
    defaultToken "hello" = "default=\"hello\"" ∧
    generate_field_code flagField = "flag: bool = Field(default=True)" :=
  ⟨fun s => ⟨classifyDefault s, rfl, fun _ h => h.symm⟩, by decide, by decide, by decide⟩

theorem classification_total_deterministic_witness :
    classifyDefault "hello" = DefaultClass.stringDefault :=
  classification_total_deterministic.2.1

/-- C5: for every descriptor list the aggregated import list contains the two
fixed base imports, contains every import at most once no matter how many
descriptors trigger it (set-union aggregation), and is lexically sorted; two
DateTime descriptors yield exactly the date/time-support import once plus the
two base imports. -/
theorem import_aggregation_set_sorted :
    (∀ l : List FieldInfo,
      "from typing import Optional" ∈ sortedImports l ∧
      "from sqlmodel import SQLModel, Field" ∈ sortedImports l ∧
      (∀ s : String, (sortedImports l).count s ≤ 1) ∧
      List.Sorted (· ≤ ·) (sortedImports l)) ∧
    sortedImports [dtField1, dtField2] =
      ["from datetime import datetime, date, time",
       "from sqlmodel import SQLModel, Field",
       "from typing import Optional"] := by
  constructor
  · intro l
    have hperm : List.Perm (sortedImports l) (importsOf l) := List.perm_insertionSort strLexLe _
    refine ⟨?_, ?_, ?_, ?_⟩
    · exact hperm.mem_iff.mpr (mem_foldl_importStep l baseImports _ (by decide))
    · exact hperm.mem_iff.mpr (mem_foldl_importStep l baseImports _ (by decide))
    · intro s
      have hnd : (sortedImports l).Nodup := hperm.nodup_iff.mpr (nodup_importsOf l)
      exact List.nodup_iff_count_le_one.mp hnd s
    · exact (List.sorted_insertionSort strLexLe (importsOf l)).imp fun h => strLexLe_le h
  · decide

/-- C9: Enum descriptors add no additional import — a descriptor list
consisting only of Enum fields yields exactly the two fixed base imports. -/
theorem enum_adds_no_import (l : List FieldInfo)
    (h : ∀ f ∈ l, f.type = TypeCategory.enum) :
    sortedImports l =
      ["from sqlmodel import SQLModel, Field", "from typing import Optional"] := by
  unfold sortedImports importsOf
  rw [foldl_importStep_none l baseImports (fun f hf => fieldImport_enum (h f hf))]
  decide

theorem enum_adds_no_import_witness :
    sortedImports [enumField] =
      ["from sqlmodel import SQLModel, Field", "from typing import Optional"] :=
  enum_adds_no_import [enumField]
    (by intro f hf; rw [List.mem_singleton] at hf; subst hf; rfl)


/-! ## Token-shape lemmas -/

theorem default_factory_split : ("default_factory=" : String) = "default" ++ "_factory=" := by
  decide

theorem default_eq_split : ("default=" : String) = "default" ++ "=" := by decide

theorem default_quote_split : ("default=\"" : String) = "default" ++ "=\"" := by decide

theorem defaultToken_shape (s : String) : ∃ x, defaultToken s = "default" ++ x := by
  unfold defaultToken
  cases hc : classifyDefault s with
  | nullDefault =>
    refine ⟨"=None", ?_⟩
    show ("default=None" : String) = "default" ++ "=None"
    decide
  | boolDefault =>
    by_cases h : pyLower s = "true"
    · rw [if_pos h]
      refine ⟨"=True", ?_⟩
      show ("default=True" : String) = "default" ++ "=True"
      decide
    · rw [if_neg h]
      refine ⟨"=False", ?_⟩
      show ("default=False" : String) = "default" ++ "=False"
      decide
  | factoryDefault =>
    refine ⟨"_factory=" ++ s, ?_⟩
    rw [default_factory_split, strAppend_assoc]
  | numericDefault =>
    refine ⟨"=" ++ s, ?_⟩
    rw [default_eq_split, strAppend_assoc]
  | stringDefault =>
    refine ⟨"=\"" ++ s ++ "\"", ?_⟩
    simp only [default_quote_split, strAppend_assoc]

theorem mem_defaultParams_shape {f : FieldInfo} {t : String} (h : t ∈ defaultParams f) :
    ∃ x, t = "default" ++ x := by
  cases hd : f.default with
  | some s =>
    simp only [defaultParams, hd, List.mem_singleton] at h
    subst h
    exact defaultToken_shape s
  | none =>
    simp only [defaultParams, hd] at h
    split at h
    · rw [List.mem_singleton] at h
      subst h
      exact ⟨"=None", by decide⟩
    · exact absurd h (List.not_mem_nil t)

theorem mem_pkParams_shape {f : FieldInfo} {t : String} (h : t ∈ pkParams f) :
    t = "primary_key=True" := by
  unfold pkParams at h
  split at h
  · rwa [List.mem_singleton] at h
  · exact absurd h (List.not_mem_nil t)

theorem mem_minParams_shape {f : FieldInfo} {t : String} (h : t ∈ minParams f) :
    (∃ x, t = "min_length=" ++ x) ∨ (∃ x, t = "ge=" ++ x) := by
  cases hm : f.min_value with
  | none => simp [minParams, hm] at h
  | some v =>
    simp only [minParams, hm] at h
    by_cases hv : v = ""
    · simp [hv] at h
    · by_cases hs : pythonName f.type = "str"
      · simp [hv, hs] at h
        exact Or.inl ⟨v, h⟩
      · simp [hv, hs] at h
        exact Or.inr ⟨v, h⟩

theorem mem_maxParams_shape {f : FieldInfo} {t : String} (h : t ∈ maxParams f) :
    (∃ x, t = "max_length=" ++ x) ∨ (∃ x, t = "le=" ++ x) := by
  cases hm : f.max_value with
  | none => simp [maxParams, hm] at h
  | some v =>
    simp only [maxParams, hm] at h
    by_cases hv : v = ""
    · simp [hv] at h
    · by_cases hs : pythonName f.type = "str"
      · simp [hv, hs] at h
        exact Or.inl ⟨v, h⟩
      · simp [hv, hs] at h
        exact Or.inr ⟨v, h⟩

theorem mem_decimalParams_shape {f : FieldInfo} {t : String} (h : t ∈ decimalParams f) :
    (∃ x, t = "max_digits=" ++ x) ∨
      (∃ x, t = "decimal_places=" ++ x ∧ f.decimal_places = some x ∧ x ≠ "") := by
  unfold decimalParams at h
  by_cases hdec : pythonName f.type = "Decimal"
  case neg => rw [if_neg hdec] at h; exact absurd h (List.not_mem_nil t)
  rw [if_pos hdec, List.mem_append] at h
  rcases h with h | h
  · left
    cases hmv : f.max_value with
    | none => simp [hmv] at h
    | some v =>
      simp only [hmv] at h
      by_cases hv : v = ""
      · simp [hv] at h
      · simp [hv] at h
        exact ⟨v, h⟩
  · cases hdp : f.decimal_places with
    | none => simp [hdp] at h
    | some x =>
      simp only [hdp] at h
      by_cases hx : x = ""
      · simp [hx] at h
      · simp [hx] at h
        exact Or.inr ⟨x, h, rfl, hx⟩

theorem mem_descParams_shape {f : FieldInfo} {t : String} (h : t ∈ descParams f) :
    ∃ x, t = "description=\"" ++ x ++ "\"" := by
  cases hd : f.description with
  | none => simp [descParams, hd] at h
  | some s =>
    simp only [descParams, hd] at h
    by_cases hs : s = ""
    · simp [hs] at h
    · simp [hs] at h
      exact ⟨s, h⟩

theorem pk_ne_dp (y : String) : "primary_key=True" ≠ "decimal_places=" ++ y :=
  ne_of_head_ne (show (some 'p' : Option Char) ≠ some 'd' by decide)

theorem minlen_ne_dp (x y : String) : "min_length=" ++ x ≠ "decimal_places=" ++ y :=
  ne_of_head_ne (show (some 'm' : Option Char) ≠ some 'd' by decide)

theorem ge_ne_dp (x y : String) : "ge=" ++ x ≠ "decimal_places=" ++ y :=
  ne_of_head_ne (show (some 'g' : Option Char) ≠ some 'd' by decide)

theorem maxlen_ne_dp (x y : String) : "max_length=" ++ x ≠ "decimal_places=" ++ y :=
  ne_of_head_ne (show (some 'm' : Option Char) ≠ some 'd' by decide)

theorem le_ne_dp (x y : String) : "le=" ++ x ≠ "decimal_places=" ++ y :=
  ne_of_head_ne (show (some 'l' : Option Char) ≠ some 'd' by decide)

theorem maxdig_ne_dp (x y : String) : "max_digits=" ++ x ≠ "decimal_places=" ++ y :=
  ne_of_head_ne (show (some 'm' : Option Char) ≠ some 'd' by decide)

theorem default_ne_dp (x y : String) : "default" ++ x ≠ "decimal_places=" ++ y :=
  ne_of_get2_ne (show (some 'f' : Option Char) ≠ some 'c' by decide)

theorem desc_ne_dp (x y : String) : "description=\"" ++ x ++ "\"" ≠ "decimal_places=" ++ y :=
  ne_of_get2_ne (show (some 's' : Option Char) ≠ some 'c' by decide)

/-- C4: for every Decimal descriptor whose maxConstraint is present with
value v, the parameter clause contains both `le=v` and `max_digits=v` (the
same value doing double duty), and contains `decimal_places=d` exactly when
decimalPlaces is present with value d. -/
theorem decimal_max_digits_and_places (f : FieldInfo) (v : String)
    (htype : f.type = TypeCategory.decimal) (hmax : f.max_value = some v)
    (hv : v ≠ "") :
    ("le=" ++ v) ∈ fieldParams f ∧ ("max_digits=" ++ v) ∈ fieldParams f ∧
      ∀ d : String, (("decimal_places=" ++ d) ∈ fieldParams f ↔
        f.decimal_places = some d ∧ d ≠ "") := by
  have hpn : pythonName f.type = "Decimal" := by rw [htype]; rfl
  have hstr : pythonName f.type ≠ "str" := by rw [htype]; decide
  refine ⟨?_, ?_, ?_⟩
  · have h1 : ("le=" ++ v) ∈ maxParams f := by simp [maxParams, hmax, hv, hstr]
    simp only [fieldParams, List.mem_append]
    tauto
  · have h1 : ("max_digits=" ++ v) ∈ decimalParams f := by
      simp [decimalParams, hpn, hmax, hv]
    simp only [fieldParams, List.mem_append]
    tauto
  · intro d
    constructor
    · intro hmem
      have h6 : ("decimal_places=" ++ d) ∈ defaultParams f ∨
          ("decimal_places=" ++ d) ∈ pkParams f ∨
          ("decimal_places=" ++ d) ∈ minParams f ∨
          ("decimal_places=" ++ d) ∈ maxParams f ∨
          ("decimal_places=" ++ d) ∈ decimalParams f ∨
          ("decimal_places=" ++ d) ∈ descParams f := by
        simpa only [fieldParams, List.mem_append, or_assoc] using hmem
      rcases h6 with h | h | h | h | h | h
      · obtain ⟨x, hx⟩ := mem_defaultParams_shape h
        exact absurd hx.symm (default_ne_dp x d)
      · exact absurd (mem_pkParams_shape h).symm (pk_ne_dp d)
      · rcases mem_minParams_shape h with ⟨x, hx⟩ | ⟨x, hx⟩
        · exact absurd hx.symm (minlen_ne_dp x d)
        · exact absurd hx.symm (ge_ne_dp x d)
      · rcases mem_maxParams_shape h with ⟨x, hx⟩ | ⟨x, hx⟩
        · exact absurd hx.symm (maxlen_ne_dp x d)
        · exact absurd hx.symm (le_ne_dp x d)
      · rcases mem_decimalParams_shape h with ⟨x, hx⟩ | ⟨x, hx, hdp, hxne⟩
        · exact absurd hx.symm (maxdig_ne_dp x d)
        · have hdx : d = x := strAppend_left_cancel hx
          subst hdx
          exact ⟨hdp, hxne⟩
      · obtain ⟨x, hx⟩ := mem_descParams_shape h
        exact absurd hx.symm (desc_ne_dp x d)
    · rintro ⟨hdp, hd⟩
      have h1 : ("decimal_places=" ++ d) ∈ decimalParams f := by
        simp [decimalParams, hpn, hmax, hv, hdp, hd]
      simp only [fieldParams, List.mem_append]
      tauto

theorem decimal_max_digits_and_places_witness :
    ("le=" ++ "8") ∈ fieldParams priceField ∧
    ("max_digits=" ++ "8") ∈ fieldParams priceField ∧
    (("decimal_places=" ++ "2") ∈ fieldParams priceField ↔
      priceField.decimal_places = some "2" ∧ "2" ≠ "") :=
  ⟨(decimal_max_digits_and_places priceField "8" rfl rfl (by decide)).1,
   (decimal_max_digits_and_places priceField "8" rfl rfl (by decide)).2.1,
   (decimal_max_digits_and_places priceField "8" rfl rfl (by decide)).2.2 "2"⟩

theorem pythonName_eq_str_iff (t : TypeCategory) :
    pythonName t = "str" ↔ t = TypeCategory.text := by
  cases t <;> decide

/-- C8: a present minConstraint v emits `min_length=v` when the type category
is Text and `ge=v` for every other category, and symmetrically
`max_length`/`le` for maxConstraint; presence is a non-empty-string check, so
the value "0" counts as present (the witness instantiates v with "0"). -/
theorem bounds_token_dispatch (f : FieldInfo) (v w : String) :
    (f.min_value = some v → v ≠ "" →
      (f.type = TypeCategory.text → ("min_length=" ++ v) ∈ fieldParams f) ∧
      (f.type ≠ TypeCategory.text → ("ge=" ++ v) ∈ fieldParams f)) ∧
    (f.max_value = some w → w ≠ "" →
      (f.type = TypeCategory.text → ("max_length=" ++ w) ∈ fieldParams f) ∧
      (f.type ≠ TypeCategory.text → ("le=" ++ w) ∈ fieldParams f)) := by
  constructor
  · intro hmin hv
    constructor
    · intro ht
      have hs : pythonName f.type = "str" := by rw [ht]; rfl
      have h1 : ("min_length=" ++ v) ∈ minParams f := by simp [minParams, hmin, hv, hs]
      simp only [fieldParams, List.mem_append]
      tauto
    · intro ht
      have hs : pythonName f.type ≠ "str" := fun hh => ht ((pythonName_eq_str_iff f.type).mp hh)
      have h1 : ("ge=" ++ v) ∈ minParams f := by simp [minParams, hmin, hv, hs]
      simp only [fieldParams, List.mem_append]
      tauto
  · intro hmax hw
    constructor
    · intro ht
      have hs : pythonName f.type = "str" := by rw [ht]; rfl
      have h1 : ("max_length=" ++ w) ∈ maxParams f := by simp [maxParams, hmax, hw, hs]
      simp only [fieldParams, List.mem_append]
      tauto
    · intro ht
      have hs : pythonName f.type ≠ "str" := fun hh => ht ((pythonName_eq_str_iff f.type).mp hh)
      have h1 : ("le=" ++ w) ∈ maxParams f := by simp [maxParams, hmax, hw, hs]
      simp only [fieldParams, List.mem_append]
      tauto

theorem bounds_token_dispatch_witness :
    ("ge=" ++ "0") ∈ fieldParams boundField ∧ ("le=" ++ "5") ∈ fieldParams boundField :=
  ⟨((bounds_token_dispatch boundField "0" "5").1 rfl (by decide)).2 (by decide),
   ((bounds_token_dispatch boundField "0" "5").2 rfl (by decide)).2 (by decide)⟩

/-- C10: factory-default recognition is exactly a case-sensitive prefix test
for `datetime.` or `uuid.` on the raw default string, evaluated after the
case-insensitive null and boolean checks and before the numeric-parse and
quoted-string fallbacks, and applies for every type category: a default of
`uuid.uuid4` yields a default_factory token on any field, while `Uuid.uuid4`
yields a quoted string literal default. -/
theorem factory_prefix_recognition :
    (∀ s : String, ¬(pyLower s = "none" ∨ pyLower s = "null") → pyLower s ≠ "true" →
      pyLower s ≠ "false" →
      (pyStartsWith s "datetime." = true ∨ pyStartsWith s "uuid." = true) →
      classifyDefault s = DefaultClass.factoryDefault) ∧
    (∀ f : FieldInfo, f.default = some "uuid.uuid4" →
      "default_factory=uuid.uuid4" ∈ fieldParams f) ∧
    (∀ f : FieldInfo, f.default = some "Uuid.uuid4" →
      "default=\"Uuid.uuid4\"" ∈ fieldParams f) := by
  refine ⟨?_, ?_, ?_⟩
  · intro s h1 h2 h3 h4
    unfold classifyDefault
    rw [if_neg h1, if_neg h2, if_neg h3]
    by_cases hdt : pyStartsWith s "datetime."
    · rw [if_pos hdt]
    · rcases h4 with h | h
      · exact absurd h hdt
      · rw [if_neg hdt, if_pos h]
  · intro f hf
    have h1 : "default_factory=uuid.uuid4" ∈ defaultParams f := by
      simp only [defaultParams, hf, List.mem_singleton]
      decide
    simp only [fieldParams, List.mem_append]
    tauto
  · intro f hf
    have h1 : "default=\"Uuid.uuid4\"" ∈ defaultParams f := by
      simp only [defaultParams, hf, List.mem_singleton]
      decide
    simp only [fieldParams, List.mem_append]
    tauto

theorem factory_prefix_recognition_witness :
    classifyDefault "uuid.uuid4" = DefaultClass.factoryDefault ∧
    "default_factory=uuid.uuid4" ∈ fieldParams factoryField :=
  ⟨factory_prefix_recognition.1 "uuid.uuid4" (by decide) (by decide) (by decide)
      (Or.inr (by decide)),
   factory_prefix_recognition.2.1 factoryField rfl⟩

/-- C7: descriptor construction fails with
`ValidationError("missing-required-field")` if and only if the stripped name
is blank or the type category is absent; for every other combination of
inputs construction succeeds with the normalized field values and no further
validation. -/
theorem add_field_validation (rawName : String) (rawType : Option TypeCategory)
    (o p : Bool) (d de mi ma dp : String) :
    ((∃ e, add_field rawName rawType o p d de mi ma dp = Except.error e) ↔
      (pyStrip rawName = "" ∨ rawType = none)) ∧
    (∀ e, add_field rawName rawType o p d de mi ma dp = Except.error e →
      e = GenError.validationError "missing-required-field") ∧
    (∀ t, rawType = some t → pyStrip rawName ≠ "" →
      add_field rawName rawType o p d de mi ma dp = Except.ok
        { name := pyStrip rawName, type := t, optional := o, primary_key := p,
          default := strippedOpt d, description := strippedOpt de,
          min_value := strippedOpt mi, max_value := strippedOpt ma,
          decimal_places := strippedOpt dp }) := by
  unfold add_field
  by_cases hn : pyStrip rawName = ""
  · rw [if_pos hn]
    refine ⟨⟨fun _ => Or.inl hn, fun _ => ⟨_, rfl⟩⟩, ?_, ?_⟩
    · intro e he
      injection he with h
      exact h.symm
    · intro t _ hn2
      exact absurd hn hn2
  · rw [if_neg hn]
    cases rawType with
    | none =>
      refine ⟨⟨fun _ => Or.inr rfl, fun _ => ⟨_, rfl⟩⟩, ?_, ?_⟩
      · intro e he
        injection he with h
        exact h.symm
      · intro t ht
        exact absurd ht (by simp)
    | some t =>
      refine ⟨⟨?_, ?_⟩, ?_, ?_⟩
      · rintro ⟨e, he⟩
        exact absurd he (by simp)
      · rintro (h | h)
        · exact absurd h hn
        · exact absurd h (by simp)
      · intro e he
        exact absurd he (by simp)
      · intro t2 ht hn2
        injection ht with h
        subst h
        rfl

theorem add_field_validation_witness :
    (∃ e, add_field "   " (some TypeCategory.integer) false false "" "" "" "" "" =
      Except.error e) ∧
    add_field " age " (some TypeCategory.integer) true false "" "" " 0 " "150" "" =
      Except.ok
        { name := pyStrip " age ", type := TypeCategory.integer, optional := true,
          primary_key := false, default := strippedOpt "", description := strippedOpt "",
          min_value := strippedOpt " 0 ", max_value := strippedOpt "150",
          decimal_places := strippedOpt "" } :=
  ⟨(add_field_validation "   " (some TypeCategory.integer) false false "" "" "" "" "").1.mpr
      (Or.inl (by decide)),
   (add_field_validation " age " (some TypeCategory.integer) true false "" "" " 0 " "150" "").2.2
      TypeCategory.integer rfl (by decide)⟩

end FieldGen
